import Mathlib

/-!
Verification of the EcoFlow PowerOcean integration (coordinator.py and
mqtt_handler.py) against its natural-language specification.

The embedding models Python values as the inductive type `PyVal` (JSON-like
values as they occur in request payloads, REST envelopes and MQTT messages),
Python dictionaries as insertion-ordered association lists, and the
coordinator as an explicit state-passing machine.  Network input to a REST
call is an explicit `RestOutcome` parameter (transport failure, or a status
code with a parsed JSON body); the hardcoded nonce and the wall-clock
timestamp of `_generate_signature` are explicit parameters of the embedded
function, since they are the only non-deterministic inputs of the signing
algorithm.  HMAC-SHA256 is implemented concretely over byte lists.
-/

/- ===================== Python values and dictionaries ===================== -/

mutual

/-- A Python/JSON value: string, integer, boolean, None, list or dict. -/
inductive PyVal where
  | str (s : String)
  | int (n : Int)
  | bool (b : Bool)
  | null
  | list (l : PyList)
  | dict (d : PyDict)
  deriving DecidableEq

/-- A Python list of values. -/
inductive PyList where
  | nil
  | cons (v : PyVal) (rest : PyList)
  deriving DecidableEq

/-- A Python dict, as an insertion-ordered sequence of key/value pairs. -/
inductive PyDict where
  | nil
  | cons (k : String) (v : PyVal) (rest : PyDict)
  deriving DecidableEq

end

/-- Flat association-list view of a dict, the workhorse representation. -/
abbrev Dict := List (String × PyVal)

/-- Entries of a `PyDict` as an association list, in insertion order. -/
def PyDict.entries : PyDict → Dict
  | .nil => []
  | .cons k v rest => (k, v) :: rest.entries

/-- Build a `PyDict` from an association list (literals convenience). -/
def PyDict.ofEntries : Dict → PyDict
  | [] => .nil
  | (k, v) :: rest => .cons k v (PyDict.ofEntries rest)

/-- Build a `PyList` from a Lean list (literals convenience). -/
def PyList.ofList : List PyVal → PyList
  | [] => .nil
  | v :: rest => .cons v (PyList.ofList rest)

/-- Python `k in d`: key membership in a dict. -/
def dictMem (d : Dict) (k : String) : Bool := d.any (fun p => p.1 == k)

/-- Python `d.get(k)`: first value stored under `k`, if any. -/
def dictGet (d : Dict) (k : String) : Option PyVal :=
  match d with
  | [] => Option.none
  | p :: rest => if p.1 == k then some p.2 else dictGet rest k

/-- Python `d.get(k, dflt)`. -/
def dictGetD (d : Dict) (k : String) (dflt : PyVal) : PyVal := (dictGet d k).getD dflt

/-- Python `d[k] = v`: update in place when the key exists, else append. -/
def dictSet (d : Dict) (k : String) (v : PyVal) : Dict :=
  if dictMem d k then d.map (fun p => if p.1 == k then (p.1, v) else p)
  else d ++ [(k, v)]

/-- Python `d.update(e)`: assign every pair of `e` into `d`, in order. -/
def dictUpdate (d e : Dict) : Dict := e.foldl (fun a p => dictSet a p.1 p.2) d

/-- Python truthiness of a value: empty/zero/None/False are falsy. -/
def pyTruthy : PyVal → Bool
  | .str s => s != ""
  | .int n => n != 0
  | .bool b => b
  | .null => false
  | .list .nil => false
  | .list _ => true
  | .dict .nil => false
  | .dict _ => true

mutual

/-- Python `str(v)` as used by f-string interpolation in the source.
For strings it is the raw text, for None the text `None`, for booleans
`True`/`False`; containers render with `repr` of their elements (element
strings are rendered between plain single quotes). -/
def pyStr : PyVal → String
  | .str s => s
  | .int n => toString n
  | .bool b => if b then "True" else "False"
  | .null => "None"
  | .list l => "[" ++ pyReprItems l ++ "]"
  | .dict d => "\x7b" ++ pyReprEntries d ++ "\x7d"

/-- Python `repr(v)`: differs from `str` only on top-level strings. -/
def pyRepr : PyVal → String
  | .str s => "\x27" ++ s ++ "\x27"
  | .int n => toString n
  | .bool b => if b then "True" else "False"
  | .null => "None"
  | .list l => "[" ++ pyReprItems l ++ "]"
  | .dict d => "\x7b" ++ pyReprEntries d ++ "\x7d"

/-- Comma-separated reprs of the items of a list. -/
def pyReprItems : PyList → String
  | .nil => ""
  | .cons v .nil => pyRepr v
  | .cons v rest => pyRepr v ++ ", " ++ pyReprItems rest

/-- Comma-separated `key: value` reprs of the entries of a dict. -/
def pyReprEntries : PyDict → String
  | .nil => ""
  | .cons k v .nil => "\x27" ++ k ++ "\x27: " ++ pyRepr v
  | .cons k v rest => "\x27" ++ k ++ "\x27: " ++ pyRepr v ++ ", " ++ pyReprEntries rest

end

/- ===================== _flatten_dict ===================== -/

/-- Key extension of `_flatten_dict`: the Python expression
`new_key = parent_key + sep + k if parent_key else k`. -/
def mkKey (parentKey sep k : String) : String :=
  if parentKey = "" then k else parentKey ++ sep ++ k

mutual

/-- Translation of the entry loop of `_flatten_dict` (coordinator.py
221-241): each entry of `d` is processed in order, threading the `items`
accumulator dict. -/
def flattenEntries (d : PyDict) (parentKey sep : String) (items : Dict) : Dict :=
  match d with
  | .nil => items
  | .cons k v rest =>
      flattenEntries rest parentKey sep (flattenValue v (mkKey parentKey sep k) sep items)

/-- One entry of `_flatten_dict`: nested dicts are flattened recursively and
merged with `items.update`, lists are walked index by index, any other value
is assigned under the built key. -/
def flattenValue (v : PyVal) (newKey sep : String) (items : Dict) : Dict :=
  match v with
  | .dict d => dictUpdate items (flattenEntries d newKey sep [])
  | .list l => flattenItems l newKey sep 0 items
  | v => dictSet items newKey v

/-- The list loop of `_flatten_dict`: dict elements recurse with the
bracket-indexed key, any other element is stored under the indexed key. -/
def flattenItems (l : PyList) (newKey sep : String) (idx : Nat) (items : Dict) : Dict :=
  match l with
  | .nil => items
  | .cons (.dict d) rest =>
      flattenItems rest newKey sep (idx + 1)
        (dictUpdate items (flattenEntries d (newKey ++ "[" ++ toString idx ++ "]") sep []))
  | .cons item rest =>
      flattenItems rest newKey sep (idx + 1)
        (dictSet items (newKey ++ "[" ++ toString idx ++ "]") item)

end

/-- `_flatten_dict(data)` with the default arguments of the source. -/
def flattenDict (d : PyDict) : Dict := flattenEntries d "" "." []

/- ===================== SHA-256 and HMAC (byte-list model) ===================== -/

/-- Truncation to a 32-bit word. -/
def w32 (n : Nat) : Nat := n % 4294967296

/-- 32-bit right rotation. -/
def rotr32 (x n : Nat) : Nat := w32 ((x >>> n) ||| (x <<< (32 - n)))

/-- SHA-256 big sigma 0. -/
def bsig0 (x : Nat) : Nat := (rotr32 x 2) ^^^ (rotr32 x 13) ^^^ (rotr32 x 22)

/-- SHA-256 big sigma 1. -/
def bsig1 (x : Nat) : Nat := (rotr32 x 6) ^^^ (rotr32 x 11) ^^^ (rotr32 x 25)

/-- SHA-256 small sigma 0. -/
def ssig0 (x : Nat) : Nat := (rotr32 x 7) ^^^ (rotr32 x 18) ^^^ (x >>> 3)

/-- SHA-256 small sigma 1. -/
def ssig1 (x : Nat) : Nat := (rotr32 x 17) ^^^ (rotr32 x 19) ^^^ (x >>> 10)

/-- SHA-256 choice function (complement taken inside 32 bits). -/
def chF (x y z : Nat) : Nat := (x &&& y) ^^^ ((x ^^^ 4294967295) &&& z)

/-- SHA-256 majority function. -/
def majF (x y z : Nat) : Nat := (x &&& y) ^^^ (x &&& z) ^^^ (y &&& z)

/-- The 64 SHA-256 round constants. -/
def shaK : List Nat :=
  [1116352408, 1899447441, 3049323471, 3921009573,
   961987163, 1508970993, 2453635748, 2870763221,
   3624381080, 310598401, 607225278, 1426881987,
   1925078388, 2162078206, 2614888103, 3248222580,
   3835390401, 4022224774, 264347078, 604807628,
   770255983, 1249150122, 1555081692, 1996064986,
   2554220882, 2821834349, 2952996808, 3210313671,
   3336571891, 3584528711, 113926993, 338241895,
   666307205, 773529912, 1294757372, 1396182291,
   1695183700, 1986661051, 2177026350, 2456956037,
   2730485921, 2820302411, 3259730800, 3345764771,
   3516065817, 3600352804, 4094571909, 275423344,
   430227734, 506948616, 659060556, 883997877,
   958139571, 1322822218, 1537002063, 1747873779,
   1955562222, 2024104815, 2227730452, 2361852424,
   2428436474, 2756734187, 3204031479, 3329325298]

/-- The eight 32-bit words of a SHA-256 working state. -/
structure Hash8 where
  a : Nat
  b : Nat
  c : Nat
  d : Nat
  e : Nat
  f : Nat
  g : Nat
  h : Nat
  deriving DecidableEq

/-- SHA-256 initial hash value. -/
def initH : Hash8 :=
  ⟨1779033703, 3144134277, 1013904242, 2773480762,
   1359893119, 2600822924, 528734635, 1541459225⟩

/-- Extend the message schedule by the given number of words. -/
def schedGo : Nat → Array Nat → Array Nat
  | 0, w => w
  | k + 1, w =>
      let i := w.size
      let next := w32 (ssig1 w[i - 2]! + w[i - 7]! + ssig0 w[i - 15]! + w[i - 16]!)
      schedGo k (w.push next)

/-- The 64-word message schedule of one block. -/
def msgSchedule (w16 : List Nat) : List Nat :=
  (schedGo 48 w16.toArray).toList

/-- One SHA-256 compression round. -/
def compressRound (st : Hash8) (k : Nat) (w : Nat) : Hash8 :=
  let t1 := w32 (st.h + bsig1 st.e + chF st.e st.f st.g + k + w)
  let t2 := w32 (bsig0 st.a + majF st.a st.b st.c)
  ⟨w32 (t1 + t2), st.a, st.b, st.c, w32 (st.d + t1), st.e, st.f, st.g⟩

/-- Compress one 16-word block into the running hash. -/
def compressBlock (h0 : Hash8) (w16 : List Nat) : Hash8 :=
  let ws := msgSchedule w16
  let st := (List.zip shaK ws).foldl (fun s kw => compressRound s kw.1 kw.2) h0
  ⟨w32 (h0.a + st.a), w32 (h0.b + st.b), w32 (h0.c + st.c), w32 (h0.d + st.d),
   w32 (h0.e + st.e), w32 (h0.f + st.f), w32 (h0.g + st.g), w32 (h0.h + st.h)⟩

/-- Big-endian 8-byte encoding of a 64-bit length. -/
def be64 (n : Nat) : List Nat :=
  [(n >>> 56) &&& 255, (n >>> 48) &&& 255, (n >>> 40) &&& 255, (n >>> 32) &&& 255,
   (n >>> 24) &&& 255, (n >>> 16) &&& 255, (n >>> 8) &&& 255, n &&& 255]

/-- Big-endian 4-byte encoding of a 32-bit word. -/
def be32 (n : Nat) : List Nat :=
  [(n >>> 24) &&& 255, (n >>> 16) &&& 255, (n >>> 8) &&& 255, n &&& 255]

/-- SHA-256 padding: append 0x80, zero bytes to 56 mod 64, then the
bit length as a big-endian 64-bit integer. -/
def padMsg (msg : List Nat) : List Nat :=
  let l := msg.length
  let z := (119 - (l % 64)) % 64
  msg ++ [0x80] ++ List.replicate z 0 ++ be64 ((8 * l) % 18446744073709551616)

/-- Group bytes into big-endian 32-bit words. -/
def toWords : List Nat → List Nat
  | a :: b :: c :: d :: rest => (a * 16777216 + b * 65536 + c * 256 + d) :: toWords rest
  | _ => []

/-- Split a byte list into 64-byte blocks (fuel is the list length). -/
def chunks64 : Nat → List Nat → List (List Nat)
  | 0, _ => []
  | _, [] => []
  | fuel + 1, l => l.take 64 :: chunks64 fuel (l.drop 64)

/-- SHA-256 of a byte list. -/
def sha256Bytes (msg : List Nat) : List Nat :=
  let padded := padMsg msg
  let blocks := chunks64 padded.length padded
  let hfin := blocks.foldl (fun h b => compressBlock h (toWords b)) initH
  be32 hfin.a ++ be32 hfin.b ++ be32 hfin.c ++ be32 hfin.d ++
  be32 hfin.e ++ be32 hfin.f ++ be32 hfin.g ++ be32 hfin.h

/-- Lowercase hex digit. -/
def hexDigit (n : Nat) : Char :=
  if n < 10 then Char.ofNat (48 + n) else Char.ofNat (87 + n)

/-- Lowercase hex encoding of a byte list (Python hexdigest). -/
def bytesToHex (bs : List Nat) : String :=
  String.mk (bs.foldr (fun b acc => hexDigit (b >>> 4) :: hexDigit (b &&& 15) :: acc) [])

/-- UTF-8 encoding of one character as bytes. -/
def utf8EncodeCharNat (c : Char) : List Nat :=
  let n := c.toNat
  if n < 128 then [n]
  else if n < 2048 then [192 ||| (n >>> 6), 128 ||| (n &&& 63)]
  else if n < 65536 then
    [224 ||| (n >>> 12), 128 ||| ((n >>> 6) &&& 63), 128 ||| (n &&& 63)]
  else
    [240 ||| (n >>> 18), 128 ||| ((n >>> 12) &&& 63), 128 ||| ((n >>> 6) &&& 63), 128 ||| (n &&& 63)]

/-- Python `s.encode("utf-8")` as a byte list. -/
def strBytes (s : String) : List Nat :=
  (s.data.map utf8EncodeCharNat).flatten

/-- HMAC-SHA256 over byte lists (block size 64). -/
def hmacSha256Bytes (key msg : List Nat) : List Nat :=
  let k0 := if 64 < key.length then sha256Bytes key else key
  let kp := k0 ++ List.replicate (64 - k0.length) 0
  let ipad := kp.map (fun x => x ^^^ 54)
  let opad := kp.map (fun x => x ^^^ 92)
  sha256Bytes (opad ++ sha256Bytes (ipad ++ msg))

/-- Python `hmac.new(key, msg, hashlib.sha256).hexdigest()` on UTF-8 strings. -/
def hmacSha256Hex (key msg : String) : String :=
  bytesToHex (hmacSha256Bytes (strBytes key) (strBytes msg))

/- ===================== _generate_signature ===================== -/

/-- Executable codepoint-lexicographic comparison of character lists (the
comparison Python uses on str). -/
def charListLt : List Char → List Char → Bool
  | [], [] => false
  | [], _ :: _ => true
  | _ :: _, [] => false
  | a :: as, b :: bs =>
      if a.toNat < b.toNat then true
      else if b.toNat < a.toNat then false
      else charListLt as bs

/-- Executable string comparison in codepoint order. -/
def strLtB (a b : String) : Bool := charListLt a.data b.data

/-- Insert a pair into a key-sorted association list, keeping it sorted. -/
def insertByKey (p : String × PyVal) : Dict → Dict
  | [] => [p]
  | q :: rest => if strLtB p.1 q.1 then p :: q :: rest else q :: insertByKey p rest

/-- Python `sorted(flat.items())` for a dict with distinct keys: sort the
pairs by key in codepoint (ASCII) order. -/
def sortByKey (d : Dict) : Dict := d.foldr insertByKey []

/-- The trailing credential triple of every signing base string. -/
def credTriple (accessKey nonce ts : String) : String :=
  "accessKey=" ++ accessKey ++ "&nonce=" ++ nonce ++ "&timestamp=" ++ ts

/-- Translation of `_generate_signature` (coordinator.py 190-219), with the
nonce and the millisecond timestamp as explicit parameters.  Returns the
header dict as an ordered association list. -/
def generateSignature (accessKey secretKey : String) (payload : PyDict)
    (method path : String) (nonce ts : String) : List (String × String) :=
  let flat := flattenDict payload
  let signBase :=
    if flat.isEmpty then ""
    else String.intercalate "&" ((sortByKey flat).map (fun p => p.1 ++ "=" ++ pyStr p.2)) ++ "&"
  let signBase := signBase ++ credTriple accessKey nonce ts
  let signature := hmacSha256Hex secretKey signBase
  let headers := [("accessKey", accessKey), ("nonce", nonce), ("timestamp", ts), ("sign", signature)]
  if method = "POST" then headers ++ [("Content-Type", "application/json;charset=UTF-8")]
  else headers

/-- Modelled from the spec wording for the signing base string: the
ASCII-sorted flattened `key=value` pairs joined by `&`, followed by the
credential triple, and only the trailing triple when the payload flattens
to the empty mapping. -/
def signBaseSpec (accessKey : String) (payload : PyDict) (nonce ts : String) : String :=
  let pairs := (sortByKey (flattenDict payload)).map (fun p => p.1 ++ "=" ++ pyStr p.2)
  if pairs = [] then credTriple accessKey nonce ts
  else String.intercalate "&" pairs ++ "&" ++ credTriple accessKey nonce ts

/-- Lookup in a header list. -/
def headerGet (hs : List (String × String)) (k : String) : Option String :=
  match hs with
  | [] => Option.none
  | p :: rest => if p.1 == k then some p.2 else headerGet rest k

/- ===================== REST client layer ===================== -/

/-- Outcome of one HTTP request as seen by the caller: a transport-level
failure (network error, timeout, unparseable body), or a status code with
the parsed JSON body. -/
inductive RestOutcome where
  | netError
  | resp (status : Nat) (body : PyVal)
  deriving DecidableEq

/-- A snapshot/historical fetch outcome the spec calls a failure: network
error, timeout, or non-2xx response (raise_for_status fires from 400 up). -/
def RestOutcome.isFailure : RestOutcome → Bool
  | .netError => true
  | .resp s _ => decide (400 ≤ s)

/-- Translation of `_process_get_all_quota_response`: flatten the data, and
return an empty dict when processing raises (a non-mapping has no items). -/
def processGetAllQuotaResponse (data : PyVal) : Dict :=
  match data with
  | .dict d => flattenDict d
  | _ => []

/-- The body of `_fetch_all_quotas` before its catch-all handler: transport
failures and raise_for_status surface as errors, otherwise the data field of
the envelope (a mapping in this embedding) is processed.  A non-mapping
envelope makes the `js.get` attribute access raise. -/
def fetchAllQuotasBody (o : RestOutcome) : Except Unit Dict :=
  match o with
  | .netError => .error ()
  | .resp status body =>
      if 400 ≤ status then .error ()
      else
        match body with
        | .dict js => .ok (processGetAllQuotaResponse (dictGetD js.entries "data" (.dict .nil)))
        | _ => .error ()

/-- Translation of `_fetch_all_quotas` (coordinator.py 99-114): the whole
body sits in a try/except that turns every exception into an empty dict, so
the function never raises. -/
def fetchAllQuotas (o : RestOutcome) : Dict :=
  match fetchAllQuotasBody o with
  | .ok d => d
  | .error _ => []

/-- Translation of `_fetch_historical_data` (coordinator.py 117-137): on a
2xx response the raw data field of the envelope (a mapping in this
embedding) is returned unflattened; every failure is caught and yields an
empty dict. -/
def fetchHistoricalData (o : RestOutcome) : Dict :=
  match o with
  | .netError => []
  | .resp status body =>
      if 400 ≤ status then []
      else
        match body with
        | .dict js =>
            match dictGetD js.entries "data" (.dict .nil) with
            | .dict d => d.entries
            | _ => []
        | _ => []

/- ===================== Merge coordinator state machine ===================== -/

/-- The mutable fields of `EcoFlowDataCoordinator` that the claims concern:
the two REST caches, the MQTT field buffer, the published canonical state
(`self.data`, None before the first publish) and the historical-fetch
timestamp. -/
structure CoordState where
  cloud : Dict
  hist : Dict
  mqtt : Dict
  data : Option Dict
  lastHistoryFetch : Option Int
  deriving DecidableEq

/-- Coordinator state right after construction: empty caches, nothing
published, no historical fetch recorded. -/
def initCoordState : CoordState :=
  { cloud := [], hist := [], mqtt := [], data := Option.none, lastHistoryFetch := Option.none }

/-- The configured historical interval (coordinator.py 56), in seconds. -/
def histIntervalSec : Int := 3600

/-- The need_history condition of `_async_update_data` (coordinator.py 69):
no previous fetch, or more than the interval elapsed since it. -/
def needHistory (lastFetch : Option Int) (now : Int) : Bool :=
  match lastFetch with
  | Option.none => true
  | some t => decide (now - t > histIntervalSec)

/-- Translation of `_async_update_data` (coordinator.py 58-86) for one tick
at wall-clock `now`, with the outcomes of the snapshot call and of the
(possibly skipped) historical call as inputs.  `_fetch_all_quotas` catches
every exception, so the surrounding try/except re-raise never fires and the
tick always completes: the combined dict is published into `data`.  When the
historical fetch is attempted, its result is assigned (empty on failure) and
the timestamp is advanced whether or not it failed. -/
def asyncUpdateData (st : CoordState) (now : Int) (cloudO histO : RestOutcome) : CoordState :=
  let cloud := fetchAllQuotas cloudO
  let needHist := needHistory st.lastHistoryFetch now
  let hist := if needHist then fetchHistoricalData histO else st.hist
  let lastFetch := if needHist then some now else st.lastHistoryFetch
  let combined := dictUpdate (dictUpdate cloud hist) st.mqtt
  { cloud := cloud, hist := hist, mqtt := st.mqtt, data := some combined,
    lastHistoryFetch := lastFetch }

/-- Result of one `update_mqtt_data` call: the coordinator state after the
direct (network-thread) part, the arguments enqueued via `hass.add_job` for
`_async_update_mqtt_data`, and the keys dropped with a warning. -/
structure MqttPush where
  state : CoordState
  jobs : List Dict
  dropped : List String
  deriving DecidableEq

/-- Translation of `update_mqtt_data` (coordinator.py 160-183): flatten the
payload; buffer each flattened field unless its key already exists in
cloud_data, in which case it is dropped with a warning; then enqueue one
publish job carrying the previous published dict overlaid with the full
buffer (or the empty dict when nothing was published yet). -/
def updateMqttData (st : CoordState) (payload : PyDict) : MqttPush :=
  let flat := flattenDict payload
  let step := fun (acc : Dict × List String) (p : String × PyVal) =>
    if dictMem st.cloud p.1 then (acc.1, acc.2 ++ [p.1])
    else (dictSet acc.1 p.1 p.2, acc.2)
  let r := flat.foldl step (st.mqtt, [])
  let st' := { st with mqtt := r.1 }
  let jobs :=
    match st.data with
    | some d => [dictUpdate d r.1]
    | Option.none => [([] : Dict)]
  ⟨st', jobs, r.2⟩

/-- Translation of `_async_update_mqtt_data` (coordinator.py 184-188) as run
by the scheduler: `async_set_updated_data` replaces the published state. -/
def runMqttJob (st : CoordState) (d : Dict) : CoordState := { st with data := some d }

/-- One MQTT delivery end to end: the network-thread part of
`update_mqtt_data` followed by the scheduler draining the enqueued job. -/
def updateMqttFull (st : CoordState) (payload : PyDict) : CoordState :=
  let r := updateMqttData st payload
  r.jobs.foldl runMqttJob r.state

/-- An externally visible event of the coordinator: a scheduled refresh tick
with its two fetch outcomes, or an MQTT field-update delivery. -/
inductive Ev where
  | refresh (now : Int) (cloudO histO : RestOutcome)
  | mqttMsg (payload : PyDict)

/-- Apply one event to the coordinator state. -/
def stepEv (st : CoordState) : Ev → CoordState
  | .refresh now c h => asyncUpdateData st now c h
  | .mqttMsg p => updateMqttFull st p

/-- Run a sequence of events from a starting state. -/
def runTrace (st : CoordState) (tr : List Ev) : CoordState := tr.foldl stepEv st

/-- Run refresh ticks (time and the two outcomes per tick) and count how
many of them attempt the historical fetch, i.e. enter the need_history
branch of `_async_update_data`. -/
def runRefreshes (st : CoordState) : List (Int × RestOutcome × RestOutcome) → CoordState × Nat
  | [] => (st, 0)
  | (t, c, h) :: rest =>
      let a : Nat := if needHistory st.lastHistoryFetch t then 1 else 0
      let r := runRefreshes (asyncUpdateData st t c h) rest
      (r.1, a + r.2)

/- ===================== MQTT handler ===================== -/

/-- The fields of `EcoFlowMQTTHandler` that the claims concern.  The broker
connection parameters (host, port, TLS) read in `__init__` are not part of
any claim and are not modelled. -/
structure MqttHandlerState where
  accessKey : PyVal
  deviceSn : String
  topics : List String
  connected : Bool
  deriving DecidableEq

/-- Translation of `EcoFlowMQTTHandler.__init__` (mqtt_handler.py 13-28):
the subscription account is `cert_info.get("accessKey")` (None when the
stored certificate data has no such key), the topic channel list is
`["quota"]`, and the handler starts disconnected. -/
def mkHandler (certInfo : Dict) (deviceSn : String) : MqttHandlerState :=
  { accessKey := dictGetD certInfo "accessKey" PyVal.null
    deviceSn := deviceSn
    topics := ["quota"]
    connected := false }

/-- Translation of `on_connect` (mqtt_handler.py 69-81): on rc = 0 mark
connected and subscribe to `/open/<access_key>/<device_sn>/<topic>` for each
configured topic (f-string interpolation renders the stored value with
Python str); otherwise only log.  Returns the subscribed topic strings. -/
def onConnect (h : MqttHandlerState) (rc : Nat) : MqttHandlerState × List String :=
  if rc = 0 then
    ({ h with connected := true },
     h.topics.map (fun t => "/open/" ++ pyStr h.accessKey ++ "/" ++ h.deviceSn ++ "/" ++ t))
  else (h, [])

/-- How one `on_message` call ends. -/
inductive MsgOutcome where
  | dropped
  | forwarded
  | typeErr
  deriving DecidableEq

/-- Translation of `on_message` (mqtt_handler.py 93-116) against a
coordinator state.  The decode input is None when the payload bytes are not
UTF-8 JSON (the decode exception is caught and the message dropped).  A
falsy decoded payload is dropped; then `params` is extracted with the whole
payload as default, and a falsy extraction is dropped; otherwise the update
is forwarded to `update_mqtt_data`.  A truthy non-mapping payload makes the
attribute access `payload_json.get` raise, and a truthy non-mapping `params`
makes `_flatten_dict` raise inside the coordinator before any mutation;
both surface as `typeErr` with the state unchanged. -/
def onMessage (st : CoordState) (decoded : Option PyVal) : CoordState × MsgOutcome :=
  match decoded with
  | Option.none => (st, .dropped)
  | some pj =>
      if pyTruthy pj = false then (st, .dropped)
      else
        match pj with
        | .dict d =>
            let dataV := dictGetD d.entries "params" (.dict d)
            if pyTruthy dataV = false then (st, .dropped)
            else
              match dataV with
              | .dict params => (updateMqttFull st params, .forwarded)
              | _ => (st, .typeErr)
        | _ => (st, .typeErr)

/- ===================== Spec-side definitions ===================== -/

mutual

/-- Modelled from the spec wording for flattening: the flat path-to-value
pairs of a nested mapping, nested mappings contributing dot-separated keys,
sequences contributing bracket-indexed keys with mapping elements recursed
into, scalars mapping under their own key; pairs listed in traversal
order. -/
def specPathsEntries (d : PyDict) (parent : String) : Dict :=
  match d with
  | .nil => []
  | .cons k v rest => specPathsVal v (mkKey parent "." k) ++ specPathsEntries rest parent

/-- Spec-side paths contributed by one value under a built key. -/
def specPathsVal (v : PyVal) (key : String) : Dict :=
  match v with
  | .dict d => specPathsEntries d key
  | .list l => specPathsItems l key 0
  | v => [(key, v)]

/-- Spec-side paths contributed by the elements of a sequence. -/
def specPathsItems (l : PyList) (key : String) (idx : Nat) : Dict :=
  match l with
  | .nil => []
  | .cons (.dict d) rest =>
      specPathsEntries d (key ++ "[" ++ toString idx ++ "]") ++ specPathsItems rest key (idx + 1)
  | .cons item rest =>
      (key ++ "[" ++ toString idx ++ "]", item) :: specPathsItems rest key (idx + 1)

end

/-- The quota endpoint path used for signing throughout the coordinator. -/
def quotaAllPath : String := "/iot-open/sign/device/quota/all"

/-- The certification endpoint path. -/
def certificationPath : String := "/iot-open/sign/certification"

/-- The signature headers computed by `fetch_mqtt_certification`
(coordinator.py 139-147): an empty payload signed as a GET with the quota
path, although the call goes to the certification endpoint. -/
def fetchMqttCertificationSignature (accessKey secretKey nonce ts : String) :
    List (String × String) :=
  generateSignature accessKey secretKey PyDict.nil "GET" quotaAllPath nonce ts

/- ===================== Concrete inputs used in examples and counterexamples ===================== -/

/-- A 200 envelope `\x7bcode, message, data\x7d` whose data field holds the
given mapping. -/
def mkResp200 (d : Dict) : RestOutcome :=
  .resp 200 (.dict (.ofEntries
    [("code", .str "0"), ("message", .str "Success"), ("data", .dict (.ofEntries d))]))

/-- Nested-mapping example of the flattening claim. -/
def exNested : PyDict := .ofEntries [("a", .dict (.ofEntries [("b", .int 1)]))]

/-- Sequence-of-mappings example of the flattening claim. -/
def exSeq : PyDict :=
  .ofEntries [("a", .list (.ofList
    [.dict (.ofEntries [("b", .int 1)]), .dict (.ofEntries [("c", .int 2)])]))]

/-- Trace: snapshot already holds y, then an MQTT update for y arrives. -/
def c2traceA : List Ev :=
  [Ev.refresh 0 (mkResp200 [("y", .int 2)]) (mkResp200 []),
   Ev.mqttMsg (.ofEntries [("y", .int 9)])]

/-- Trace: the y collision above, then an MQTT update for z arrives before a
snapshot that also carries z. -/
def c2traceB : List Ev :=
  c2traceA ++
  [Ev.mqttMsg (.ofEntries [("z", .int 7)]),
   Ev.refresh 100 (mkResp200 [("z", .int 5)]) (mkResp200 [])]

/-- Trace: an MQTT field arrives before the second snapshot, and no MQTT
message arrives after it. -/
def c3trace : List Ev :=
  [Ev.refresh 0 (mkResp200 []) (mkResp200 []),
   Ev.mqttMsg (.ofEntries [("a", .int 1)]),
   Ev.refresh 100 (mkResp200 [("b", .int 2)]) (mkResp200 [])]

/-- Certificate data shaped like the documented certification response:
it carries certificateAccount but no accessKey field. -/
def certInfoSpecShaped : Dict :=
  [("url", .str "mqtt-e.ecoflow.com"), ("port", .int 8883),
   ("certificateAccount", .str "open-abc123"), ("certificatePassword", .str "pw"),
   ("protocol", .str "mqtts")]

/- ===================== Supporting lemmas ===================== -/

set_option maxRecDepth 100000 in
/-- SHA-256 of the empty message (FIPS 180-4 test vector). -/
theorem sha256_vector_empty :
    bytesToHex (sha256Bytes (strBytes "")) =
      "e3b0c44298fc1c149afbf4c8996fb92427ae41e4649b934ca495991b7852b855" := by decide

set_option maxRecDepth 100000 in
/-- SHA-256 of the three-byte message abc (FIPS 180-4 test vector). -/
theorem sha256_vector_abc :
    bytesToHex (sha256Bytes (strBytes "abc")) =
      "ba7816bf8f01cfea414140de5dae2223b00361a396177a9cb410ff61f20015ad" := by decide

set_option maxRecDepth 100000 in
/-- HMAC-SHA256 test case 2 of RFC 4231. -/
theorem hmac_vector_rfc4231 :
    hmacSha256Hex "Jefe" "what do ya want for nothing?" =
      "5bdcc146bf60754e6a042426089575c75a003f089d2739839dec58b964ec3843" := by decide

/-- Inserting into a sorted association list permutes consing. -/
theorem insertByKey_perm (p : String × PyVal) (l : Dict) :
    List.Perm (insertByKey p l) (p :: l) := by
  induction l with
  | nil => exact List.Perm.refl _
  | cons q rest ih =>
      unfold insertByKey
      split
      · exact List.Perm.refl _
      · exact (List.Perm.cons q ih).trans (List.Perm.swap p q rest)

/-- The key sort is a permutation of its input. -/
theorem sortByKey_perm (l : Dict) : List.Perm (sortByKey l) l := by
  induction l with
  | nil => exact List.Perm.refl _
  | cons p rest ih =>
      have : sortByKey (p :: rest) = insertByKey p (sortByKey rest) := rfl
      rw [this]
      exact (insertByKey_perm p _).trans (List.Perm.cons p ih)

/-- The executable character-list comparison agrees with the lexicographic
order on character lists. -/
theorem charListLt_iff : ∀ (as bs : List Char), charListLt as bs = true ↔ as < bs := by
  intro as
  induction as with
  | nil =>
      intro bs
      cases bs with
      | nil => simp [charListLt]
      | cons b bs =>
          simp only [charListLt, true_iff]
          exact List.Lex.nil
  | cons a as ih =>
      intro bs
      cases bs with
      | nil => simp [charListLt]
      | cons b bs =>
          by_cases h1 : a.toNat < b.toNat
          · simp only [charListLt, h1, if_true, true_iff]
            exact List.Lex.rel h1
          · by_cases h2 : b.toNat < a.toNat
            · simp only [charListLt, h1, h2, if_false, if_true]
              refine iff_of_false (by simp) ?_
              intro hcon
              cases hcon with
              | rel h => exact h1 h
              | cons h => exact absurd h2 (lt_irrefl _)
            · have hab : a = b := by
                have hle1 : a.toNat ≤ b.toNat := Nat.le_of_not_lt h2
                have hle2 : b.toNat ≤ a.toNat := Nat.le_of_not_lt h1
                exact Char.eq_of_val_eq (UInt32.eq_of_toBitVec_eq
                  (BitVec.le_antisymm hle1 hle2))
              subst hab
              simp only [charListLt, h1, if_false, ih bs]
              constructor
              · exact List.Lex.cons
              · intro hcon
                cases hcon with
                | rel h => exact absurd h h1
                | cons h => exact h
/-- The executable string comparison agrees with the order on strings. -/
theorem strLtB_iff (a b : String) : strLtB a b = true ↔ a < b := by
  rw [String.lt_iff_toList_lt]
  exact charListLt_iff a.data b.data

/-- Inserting into a key-sorted association list keeps it key-sorted. -/
theorem insertByKey_pairwise (p : String × PyVal) (l : Dict)
    (h : List.Pairwise (fun a b : String × PyVal => a.1 ≤ b.1) l) :
    List.Pairwise (fun a b : String × PyVal => a.1 ≤ b.1) (insertByKey p l) := by
  induction l with
  | nil => simp [insertByKey]
  | cons q rest ih =>
      rcases List.pairwise_cons.mp h with ⟨hq, hrest⟩
      unfold insertByKey
      split
      case isTrue hlt =>
        have hplt : p.1 < q.1 := (strLtB_iff p.1 q.1).mp hlt
        refine List.pairwise_cons.mpr ⟨?_, h⟩
        intro b hb
        rcases List.mem_cons.mp hb with hb | hb
        · subst hb; exact le_of_lt hplt
        · exact le_trans (le_of_lt hplt) (hq b hb)
      case isFalse hnlt =>
        have hnplt : ¬ p.1 < q.1 := fun hc => hnlt ((strLtB_iff p.1 q.1).mpr hc)
        refine List.pairwise_cons.mpr ⟨?_, ih hrest⟩
        intro b hb
        rcases List.mem_cons.mp ((insertByKey_perm p rest).subset hb) with hb | hb
        · subst hb; exact not_lt.mp hnplt
        · exact hq b hb

/-- The key sort produces a key-sorted sequence. -/
theorem sortByKey_pairwise (l : Dict) :
    List.Pairwise (fun a b : String × PyVal => a.1 ≤ b.1) (sortByKey l) := by
  induction l with
  | nil => simp [sortByKey]
  | cons p rest ih =>
      have : sortByKey (p :: rest) = insertByKey p (sortByKey rest) := rfl
      rw [this]
      exact insertByKey_pairwise p _ ih

/-- The headers of `_generate_signature`, with the sign value characterized
through the spec-side base-string construction. -/
theorem generateSignature_eq (ak sk : String) (payload : PyDict)
    (method path nonce ts : String) :
    generateSignature ak sk payload method path nonce ts =
      [("accessKey", ak), ("nonce", nonce), ("timestamp", ts),
       ("sign", hmacSha256Hex sk (signBaseSpec ak payload nonce ts))] ++
      (if method = "POST" then [("Content-Type", "application/json;charset=UTF-8")] else []) := by
  have hb : signBaseSpec ak payload nonce ts =
      (if (flattenDict payload).isEmpty then ""
       else String.intercalate "&" ((sortByKey (flattenDict payload)).map
         (fun p => p.1 ++ "=" ++ pyStr p.2)) ++ "&") ++ credTriple ak nonce ts := by
    unfold signBaseSpec
    cases hf : flattenDict payload with
    | nil => rfl
    | cons p rest =>
        have hne : ((sortByKey (p :: rest)).map fun q => q.1 ++ "=" ++ pyStr q.2) ≠ [] := by
          intro hc
          have hlen := (sortByKey_perm (p :: rest)).length_eq
          rw [List.map_eq_nil_iff] at hc
          rw [hc] at hlen
          simp at hlen
        rw [if_neg hne]
        rfl
  rw [hb]
  unfold generateSignature
  by_cases hm : method = "POST"
  · rw [if_pos hm, if_pos hm]
  · rw [if_neg hm, if_neg hm]
    exact (List.append_nil _).symm

set_option maxRecDepth 1000000 in
/-- Concrete signing example: non-empty GET payload, checked against an
independently computed HMAC-SHA256 digest of the documented base string
`sn=ABC123&accessKey=AK&nonce=123456&timestamp=1700000000000`. -/
theorem generateSignature_concrete_get :
    generateSignature "AK" "SK" (.ofEntries [("sn", .str "ABC123")]) "GET" quotaAllPath
        "123456" "1700000000000" =
      [("accessKey", "AK"), ("nonce", "123456"), ("timestamp", "1700000000000"),
       ("sign", "8125aa1c9a9aa96e0bf311ab56bb480929b1a2fa745286242f4b969ff62216a9")] := by
  decide

set_option maxRecDepth 1000000 in
/-- Concrete signing example: empty POST payload signs only the credential
triple and adds the JSON content-type header. -/
theorem generateSignature_concrete_post_empty :
    generateSignature "AK" "SK" PyDict.nil "POST" certificationPath "123456" "1700000000000" =
      [("accessKey", "AK"), ("nonce", "123456"), ("timestamp", "1700000000000"),
       ("sign", "ef123f998a6450c03f6725ee8351b16959b8c3c6cf4224b1bf6f5f4740921d72"),
       ("Content-Type", "application/json;charset=UTF-8")] := by
  decide

/-- C1: for every credentials pair and payload mapping, `_generate_signature`
builds the signing base string as the ASCII-sorted flattened key=value pairs
joined by the ampersand followed by the credential triple (only the trailing
triple when the payload flattens to empty, per `signBaseSpec`), computes the
HMAC-SHA256 of that string keyed by the secret key, hex-encodes it, and
returns exactly the headers accessKey, nonce, timestamp and sign, with a
JSON content-type header iff the method is POST; with nonce and timestamp
explicit arguments the result is a pure function of its inputs.  The sorted
pair sequence is a key-ordered permutation of the flattened payload. -/
theorem claim_C1_signature_contract :
    ∀ (ak sk : String) (payload : PyDict) (method path nonce ts : String),
      generateSignature ak sk payload method path nonce ts =
        [("accessKey", ak), ("nonce", nonce), ("timestamp", ts),
         ("sign", hmacSha256Hex sk (signBaseSpec ak payload nonce ts))] ++
        (if method = "POST" then [("Content-Type", "application/json;charset=UTF-8")]
         else []) ∧
      List.Pairwise (fun a b : String × PyVal => a.1 ≤ b.1) (sortByKey (flattenDict payload)) ∧
      List.Perm (sortByKey (flattenDict payload)) (flattenDict payload) := by
  intro ak sk payload method path nonce ts
  exact ⟨generateSignature_eq ak sk payload method path nonce ts,
         sortByKey_pairwise _, sortByKey_perm _⟩

/-- C10: the headers of `_generate_signature` are independent of the path
argument, and depend on the method only through the content-type header: the
accessKey, nonce, timestamp and sign values agree across any two calls with
the same payload, credentials, nonce and timestamp; in particular
`fetch_mqtt_certification`, which signs with the quota path while calling
the certification endpoint, obtains exactly the signature it would have
obtained with the certification path. -/
theorem claim_C10_path_method_independence :
    ∀ (ak sk : String) (payload : PyDict) (nonce ts m1 m2 p1 p2 : String),
      generateSignature ak sk payload m1 p1 nonce ts
        = generateSignature ak sk payload m1 p2 nonce ts ∧
      headerGet (generateSignature ak sk payload m1 p1 nonce ts) "accessKey"
        = headerGet (generateSignature ak sk payload m2 p2 nonce ts) "accessKey" ∧
      headerGet (generateSignature ak sk payload m1 p1 nonce ts) "nonce"
        = headerGet (generateSignature ak sk payload m2 p2 nonce ts) "nonce" ∧
      headerGet (generateSignature ak sk payload m1 p1 nonce ts) "timestamp"
        = headerGet (generateSignature ak sk payload m2 p2 nonce ts) "timestamp" ∧
      headerGet (generateSignature ak sk payload m1 p1 nonce ts) "sign"
        = headerGet (generateSignature ak sk payload m2 p2 nonce ts) "sign" ∧
      fetchMqttCertificationSignature ak sk nonce ts
        = generateSignature ak sk PyDict.nil "GET" certificationPath nonce ts := by
  intro ak sk payload nonce ts m1 m2 p1 p2
  refine ⟨rfl, ?_, ?_, ?_, ?_, rfl⟩ <;>
  rw [generateSignature_eq ak sk payload m1 p1 nonce ts,
      generateSignature_eq ak sk payload m2 p2 nonce ts] <;>
  rfl

/-- C8 counterexample: with certificate data shaped exactly like the
documented certification response (certificateAccount present, no accessKey
field), `on_connect` subscribes to `/open/None/SN100/quota` — the rendered
None of the absent accessKey field — and not to the topic built from the
certificateAccount field. -/
theorem claim_C8_counterexample :
    (onConnect (mkHandler certInfoSpecShaped "SN100") 0).2 = ["/open/None/SN100/quota"] ∧
    ¬ (onConnect (mkHandler certInfoSpecShaped "SN100") 0).2
        = ["/open/open-abc123/SN100/quota"] := by
  decide

/-- C8 amended: on every successful connection (rc = 0) the handler marks
itself connected and subscribes, for each configured channel (exactly
`quota`), to `/open/<a>/<deviceSerial>/<channel>` where `a` is the rendered
accessKey field of the stored certificate data — None when that field is
absent — rather than the certificateAccount field of the certification
response. -/
theorem claim_C8_amended :
    ∀ (certInfo : Dict) (sn : String),
      onConnect (mkHandler certInfo sn) 0 =
        ({ accessKey := dictGetD certInfo "accessKey" PyVal.null, deviceSn := sn,
           topics := ["quota"], connected := true },
         ["/open/" ++ pyStr (dictGetD certInfo "accessKey" PyVal.null) ++ "/" ++ sn
           ++ "/" ++ "quota"]) := by
  intro certInfo sn
  rfl

/-- C9: a call to `update_mqtt_data` mutates only the MQTT field buffer:
the published canonical state, the REST caches and the history timestamp
are unchanged by the call itself; `async_set_updated_data` happens only
when the scheduler runs the enqueued `_async_update_mqtt_data` callback,
which replaces the published state with the dict carried by the job. -/
theorem claim_C9_publish_handoff :
    ∀ (st : CoordState) (payload : PyDict),
      ((updateMqttData st payload).state.data = st.data ∧
       (updateMqttData st payload).state.cloud = st.cloud ∧
       (updateMqttData st payload).state.hist = st.hist ∧
       (updateMqttData st payload).state.lastHistoryFetch = st.lastHistoryFetch) ∧
      (∀ d : Dict, runMqttJob (updateMqttData st payload).state d =
         { (updateMqttData st payload).state with data := some d }) ∧
      (updateMqttFull st payload).data =
        some (match st.data with
              | some d => dictUpdate d (updateMqttData st payload).state.mqtt
              | Option.none => ([] : Dict)) := by
  intro st payload
  refine ⟨⟨rfl, rfl, rfl, rfl⟩, fun d => rfl, ?_⟩
  rcases hd : st.data with _ | d <;>
    simp [updateMqttFull, updateMqttData, runMqttJob, hd]

/-- The buffering loop of `update_mqtt_data`: folding the flattened fields
splits into the buffer overlaid with the fresh fields and the list of
dropped keys. -/
theorem mqttFold_eq (cloud flat m : Dict) (w : List String) :
    flat.foldl (fun (acc : Dict × List String) (p : String × PyVal) =>
        if dictMem cloud p.1 then (acc.1, acc.2 ++ [p.1])
        else (dictSet acc.1 p.1 p.2, acc.2)) (m, w) =
      (dictUpdate m (flat.filter (fun p => !dictMem cloud p.1)),
       w ++ (flat.filter (fun p => dictMem cloud p.1)).map Prod.fst) := by
  induction flat generalizing m w with
  | nil => simp [dictUpdate]
  | cons p rest ih =>
      cases hc : dictMem cloud p.1 <;>
        simp only [List.foldl_cons, List.filter_cons, hc, Bool.not_true, Bool.not_false,
          if_true, if_false, Bool.false_eq_true, ite_true, ite_false] <;>
        rw [ih] <;>
        simp [dictUpdate, List.append_assoc]

/-- C2 counterexample: the collision policy is not uniform.  In the trace
`c2traceA` the snapshot already holds y = 2 when an MQTT update y = 9
arrives: the MQTT field is dropped (the buffer stays empty) and the
published state keeps the REST value, so the MQTT-precedence reading fails.
Extending the trace (`c2traceB`), an MQTT update z = 7 arrives while z is
not in the snapshot, and the next refresh fetches z = 5: the published
state maps z to the buffered MQTT value 7, not the REST value 5, so the
REST-precedence reading fails on that collision. -/
theorem claim_C2_counterexample :
    ((runTrace initCoordState c2traceA).data = some [("y", PyVal.int 2)] ∧
     (runTrace initCoordState c2traceA).mqtt = [] ∧
     ¬ (runTrace initCoordState c2traceA).data = some [("y", PyVal.int 9)]) ∧
    ((runTrace initCoordState c2traceB).cloud = [("z", PyVal.int 5)] ∧
     (runTrace initCoordState c2traceB).data = some [("z", PyVal.int 7)] ∧
     ¬ dictGet ((runTrace initCoordState c2traceB).data.getD []) "z"
         = dictGet (runTrace initCoordState c2traceB).cloud "z") := by
  decide

/-- C2 amended: each refresh cycle publishes the current snapshot overlaid
by the historical summary overlaid by the buffered MQTT fields (the buffer
wins every key collision in this merge), while at MQTT arrival time a
flattened field is dropped with a warning iff its key is currently present
in cloud_data, the others being assigned into the buffer.  The collision
policy is therefore arrival-time dependent and not uniform: collisions
existing at arrival resolve to REST, later collisions against a buffered
field resolve to MQTT. -/
theorem claim_C2_amended :
    (∀ (st : CoordState) (now : Int) (cloudO histO : RestOutcome),
       (asyncUpdateData st now cloudO histO).data =
         some (dictUpdate (dictUpdate (fetchAllQuotas cloudO)
           (if needHistory st.lastHistoryFetch now then fetchHistoricalData histO
            else st.hist)) st.mqtt)) ∧
    (∀ (st : CoordState) (payload : PyDict),
       (updateMqttData st payload).state.mqtt =
         dictUpdate st.mqtt ((flattenDict payload).filter
           (fun p => !dictMem st.cloud p.1)) ∧
       (updateMqttData st payload).dropped =
         ((flattenDict payload).filter (fun p => dictMem st.cloud p.1)).map Prod.fst) := by
  refine ⟨fun st now cloudO histO => rfl, fun st payload => ?_⟩
  have h := mqttFold_eq st.cloud (flattenDict payload) st.mqtt []
  have h1 : (updateMqttData st payload).state.mqtt =
      ((flattenDict payload).foldl (fun (acc : Dict × List String) (p : String × PyVal) =>
        if dictMem st.cloud p.1 then (acc.1, acc.2 ++ [p.1])
        else (dictSet acc.1 p.1 p.2, acc.2)) (st.mqtt, [])).1 := rfl
  have h2 : (updateMqttData st payload).dropped =
      ((flattenDict payload).foldl (fun (acc : Dict × List String) (p : String × PyVal) =>
        if dictMem st.cloud p.1 then (acc.1, acc.2 ++ [p.1])
        else (dictSet acc.1 p.1 p.2, acc.2)) (st.mqtt, [])).2 := rfl
  constructor
  · rw [h1, h]
  · rw [h2, h]
    exact List.nil_append _

/-- C3 counterexample: in `c3trace` the MQTT field a = 1 arrives before the
second (most recent) REST snapshot and no MQTT message arrives afterwards,
yet the state published by that refresh still contains a = 1 — the MQTT
buffer is never cleared — while the claimed invariant (snapshot overlaid by
history overlaid by only the post-snapshot updates, here none) predicts a
state without the field. -/
theorem claim_C3_counterexample :
    (runTrace initCoordState c3trace).cloud = [("b", PyVal.int 2)] ∧
    (runTrace initCoordState c3trace).hist = [] ∧
    dictGet ((runTrace initCoordState c3trace).data.getD []) "a" = some (PyVal.int 1) ∧
    ¬ ((runTrace initCoordState c3trace).data =
        some (dictUpdate (dictUpdate (runTrace initCoordState c3trace).cloud
          (runTrace initCoordState c3trace).hist) [])) := by
  decide

/-- C3 amended: after any event history, a refresh publishes the freshly
fetched snapshot overlaid by the historical data overlaid by the entire
surviving MQTT buffer — every buffered field ever accepted, regardless of
whether it arrived before or after the previous REST snapshot — and the
refresh leaves the buffer itself untouched. -/
theorem claim_C3_amended :
    ∀ (tr : List Ev) (now : Int) (cloudO histO : RestOutcome),
      (runTrace initCoordState (tr ++ [Ev.refresh now cloudO histO])).mqtt =
        (runTrace initCoordState tr).mqtt ∧
      (runTrace initCoordState (tr ++ [Ev.refresh now cloudO histO])).data =
        some (dictUpdate (dictUpdate (fetchAllQuotas cloudO)
          (if needHistory (runTrace initCoordState tr).lastHistoryFetch now
           then fetchHistoricalData histO else (runTrace initCoordState tr).hist))
          (runTrace initCoordState tr).mqtt) := by
  intro tr now cloudO histO
  have h : runTrace initCoordState (tr ++ [Ev.refresh now cloudO histO]) =
      asyncUpdateData (runTrace initCoordState tr) now cloudO histO := by
    unfold runTrace
    rw [List.foldl_append]
    rfl
  rw [h]
  exact ⟨rfl, rfl⟩

/-- C5 counterexample: a network failure on the very first snapshot fetch is
not raised to the initializing caller.  The body of `_fetch_all_quotas`
fails, but its catch-all handler converts the failure into an empty dict,
and the first refresh completes normally, publishing an empty canonical
state instead of failing initialization. -/
theorem claim_C5_counterexample :
    fetchAllQuotasBody RestOutcome.netError = Except.error () ∧
    fetchAllQuotas RestOutcome.netError = [] ∧
    asyncUpdateData initCoordState 0 RestOutcome.netError RestOutcome.netError =
      { cloud := [], hist := [], mqtt := [], data := some [], lastHistoryFetch := some 0 } :=
  ⟨rfl, rfl, rfl⟩

/-- C5 amended: every network error, timeout or non-2xx response during a
snapshot or historical fetch is caught inside the fetch function and
surfaces as an empty-result return; this includes the very first snapshot
fetch, where the refresh applies the empty result and completes — the
re-raise path of `_async_update_data` is unreachable for fetch failures, so
no initialization failure is surfaced. -/
theorem claim_C5_amended :
    ∀ (o : RestOutcome) (st : CoordState) (now : Int) (histO : RestOutcome),
      o.isFailure = true →
      fetchAllQuotas o = [] ∧ fetchHistoricalData o = [] ∧
      (asyncUpdateData st now o histO).data =
        some (dictUpdate (dictUpdate ([] : Dict)
          (if needHistory st.lastHistoryFetch now then fetchHistoricalData histO
           else st.hist)) st.mqtt) := by
  intro o st now histO hfail
  have hq : fetchAllQuotas o = [] := by
    cases o with
    | netError => rfl
    | resp s b =>
        have hs : 400 ≤ s := by
          simpa [RestOutcome.isFailure] using hfail
        simp [fetchAllQuotas, fetchAllQuotasBody, hs]
  have hh : fetchHistoricalData o = [] := by
    cases o with
    | netError => rfl
    | resp s b =>
        have hs : 400 ≤ s := by
          simpa [RestOutcome.isFailure] using hfail
        simp [fetchHistoricalData, hs]
  refine ⟨hq, hh, ?_⟩
  show some (dictUpdate (dictUpdate (fetchAllQuotas o) _) st.mqtt) = _
  rw [hq]

/-- C5 witness: the amended statement applied to a plain network error on
the first refresh from the initial state. -/
theorem claim_C5_witness :
    RestOutcome.isFailure RestOutcome.netError = true ∧
    (fetchAllQuotas RestOutcome.netError = [] ∧
     fetchHistoricalData RestOutcome.netError = [] ∧
     (asyncUpdateData initCoordState 0 RestOutcome.netError RestOutcome.netError).data =
       some (dictUpdate (dictUpdate ([] : Dict)
         (if needHistory initCoordState.lastHistoryFetch 0
          then fetchHistoricalData RestOutcome.netError else initCoordState.hist))
         initCoordState.mqtt)) :=
  ⟨by decide, claim_C5_amended RestOutcome.netError initCoordState 0 RestOutcome.netError
    (by decide)⟩

/-- Refresh ticks within the interval after a recorded fetch never attempt
the historical fetch, and the recorded timestamp is preserved. -/
theorem runRefreshes_no_attempt (t0 : Int) :
    ∀ (ticks : List (Int × RestOutcome × RestOutcome)) (st : CoordState),
      st.lastHistoryFetch = some t0 →
      (∀ x ∈ ticks, x.1 - t0 ≤ histIntervalSec) →
      (runRefreshes st ticks).2 = 0 := by
  intro ticks
  induction ticks with
  | nil => intro st h1 h2; rfl
  | cons x rest ih =>
      intro st h1 h2
      obtain ⟨t, c, h⟩ := x
      have hx : t - t0 ≤ histIntervalSec := h2 _ (List.mem_cons_self _ _)
      have hnh : needHistory (some t0) t = false := by
        simp only [needHistory, decide_eq_false_iff_not, not_lt]
        omega
      have hpres : (asyncUpdateData st t c h).lastHistoryFetch = some t0 := by
        simp [asyncUpdateData, h1, hnh]
      have hrec := ih (asyncUpdateData st t c h) hpres
        (fun y hy => h2 y (List.mem_cons_of_mem _ hy))
      have hstep : (runRefreshes st ((t, c, h) :: rest)).2 =
          (if needHistory st.lastHistoryFetch t then 1 else 0) +
          (runRefreshes (asyncUpdateData st t c h) rest).2 := rfl
      rw [hstep, h1, hnh, hrec]
      rfl

/-- C6: from a fresh coordinator the historical fetch is attempted on the
first tick, and a run of ticks all within one 3600-second interval of the
first tick performs exactly one attempt; moreover a failed historical fetch
(network error) does not abort the refresh — the tick still publishes the
merged state, with empty historical data — while the last-fetch timestamp
is advanced to the tick time, so the next attempt waits a full interval. -/
theorem claim_C6_history_cadence :
    (∀ (t0 : Int) (c0 h0 : RestOutcome) (rest : List (Int × RestOutcome × RestOutcome)),
       (∀ x ∈ rest, t0 ≤ x.1 ∧ x.1 - t0 < histIntervalSec) →
       (runRefreshes initCoordState ((t0, c0, h0) :: rest)).2 = 1) ∧
    (∀ (st : CoordState) (now : Int) (cloudO : RestOutcome),
       needHistory st.lastHistoryFetch now = true →
       (asyncUpdateData st now cloudO RestOutcome.netError).lastHistoryFetch = some now ∧
       (asyncUpdateData st now cloudO RestOutcome.netError).hist = [] ∧
       (asyncUpdateData st now cloudO RestOutcome.netError).data =
         some (dictUpdate (dictUpdate (fetchAllQuotas cloudO) []) st.mqtt)) := by
  constructor
  · intro t0 c0 h0 rest hrest
    have hfirst : needHistory initCoordState.lastHistoryFetch t0 = true := rfl
    have hpres : (asyncUpdateData initCoordState t0 c0 h0).lastHistoryFetch = some t0 := by
      simp [asyncUpdateData, hfirst]
    have hzero := runRefreshes_no_attempt t0 rest (asyncUpdateData initCoordState t0 c0 h0)
      hpres (fun y hy => le_of_lt (hrest y hy).2)
    simp [runRefreshes, hfirst, hzero]
  · intro st now cloudO hneed
    refine ⟨?_, ?_, ?_⟩ <;> simp [asyncUpdateData, hneed, fetchHistoricalData]

/-- C6 witness: three ticks at 0, 100 and 3599 seconds attempt the
historical fetch exactly once, and a first tick whose historical fetch
fails still completes, records the tick time and publishes. -/
theorem claim_C6_witness :
    (runRefreshes initCoordState
       [((0 : Int), RestOutcome.netError, RestOutcome.netError),
        ((100 : Int), RestOutcome.netError, RestOutcome.netError),
        ((3599 : Int), RestOutcome.netError, RestOutcome.netError)]).2 = 1 ∧
    ((asyncUpdateData initCoordState 5000 RestOutcome.netError
        RestOutcome.netError).lastHistoryFetch = some 5000 ∧
     (asyncUpdateData initCoordState 5000 RestOutcome.netError
        RestOutcome.netError).hist = [] ∧
     (asyncUpdateData initCoordState 5000 RestOutcome.netError
        RestOutcome.netError).data =
       some (dictUpdate (dictUpdate (fetchAllQuotas RestOutcome.netError) [])
         initCoordState.mqtt)) :=
  ⟨claim_C6_history_cadence.1 0 RestOutcome.netError RestOutcome.netError
      [((100 : Int), RestOutcome.netError, RestOutcome.netError),
       ((3599 : Int), RestOutcome.netError, RestOutcome.netError)] (by decide),
   claim_C6_history_cadence.2 initCoordState 5000 RestOutcome.netError (by decide)⟩

/-- C7: an MQTT message whose payload is not decodable as UTF-8 JSON, or
decodes to an empty (falsy) object, or whose extracted params object is
empty, is dropped inside `on_message` without raising: nothing is forwarded
to the coordinator and the coordinator state — MQTT buffer and canonical
state included — is left unchanged. -/
theorem claim_C7_malformed_dropped :
    ∀ (st : CoordState) (decoded : Option PyVal),
      (decoded = Option.none ∨
       decoded = some (PyVal.dict PyDict.nil) ∨
       (∃ d : PyDict, decoded = some (PyVal.dict d) ∧
          pyTruthy (dictGetD d.entries "params" (PyVal.dict d)) = false)) →
      onMessage st decoded = (st, MsgOutcome.dropped) := by
  intro st decoded hcase
  rcases hcase with h | h | ⟨d, h, hp⟩
  · rw [h]; rfl
  · rw [h]; rfl
  · subst h
    by_cases ht : pyTruthy (PyVal.dict d) = false
    · simp [onMessage, ht]
    · simp [onMessage, ht, hp]

/-- C7 witness: a decoded message with a present but empty params object is
dropped with the coordinator state untouched. -/
theorem claim_C7_witness :
    (some (PyVal.dict (.cons "params" (PyVal.dict PyDict.nil) PyDict.nil)) = Option.none ∨
     some (PyVal.dict (.cons "params" (PyVal.dict PyDict.nil) PyDict.nil))
       = some (PyVal.dict PyDict.nil) ∨
     (∃ d : PyDict,
        some (PyVal.dict (.cons "params" (PyVal.dict PyDict.nil) PyDict.nil))
          = some (PyVal.dict d) ∧
        pyTruthy (dictGetD d.entries "params" (PyVal.dict d)) = false)) ∧
    onMessage initCoordState
        (some (PyVal.dict (.cons "params" (PyVal.dict PyDict.nil) PyDict.nil))) =
      (initCoordState, MsgOutcome.dropped) :=
  ⟨Or.inr (Or.inr ⟨.cons "params" (PyVal.dict PyDict.nil) PyDict.nil, rfl, by decide⟩),
   claim_C7_malformed_dropped initCoordState _
     (Or.inr (Or.inr ⟨.cons "params" (PyVal.dict PyDict.nil) PyDict.nil, rfl, by decide⟩))⟩

/-- Key membership as membership in the key projection. -/
theorem dictMem_iff (d : Dict) (k : String) :
    dictMem d k = true ↔ k ∈ d.map Prod.fst := by
  simp [dictMem, List.any_eq_true, List.mem_map, beq_iff_eq]

/-- Key non-membership as Boolean falsity of `dictMem`. -/
theorem dictMem_eq_false (d : Dict) (k : String) :
    dictMem d k = false ↔ k ∉ d.map Prod.fst := by
  rw [← dictMem_iff]
  cases dictMem d k <;> simp

/-- Assigning a fresh key appends the pair. -/
theorem dictSet_fresh (d : Dict) (k : String) (v : PyVal) (h : k ∉ d.map Prod.fst) :
    dictSet d k v = d ++ [(k, v)] := by
  have hm : dictMem d k = false := (dictMem_eq_false d k).mpr h
  simp [dictSet, hm]

/-- Updating with pairwise-fresh, distinct keys appends the update. -/
theorem dictUpdate_fresh : ∀ (e d : Dict),
    (∀ k ∈ e.map Prod.fst, k ∉ d.map Prod.fst) →
    (e.map Prod.fst).Nodup →
    dictUpdate d e = d ++ e := by
  intro e
  induction e with
  | nil => intro d _ _; simp [dictUpdate]
  | cons p rest ih =>
      intro d hdisj hnd
      have hp : p.1 ∉ d.map Prod.fst := hdisj p.1 (by simp)
      have hstep : dictUpdate d (p :: rest) = dictUpdate (dictSet d p.1 p.2) rest := rfl
      rw [List.map_cons] at hnd
      obtain ⟨hnotin, hnd'⟩ := List.nodup_cons.mp hnd
      have hdisj' : ∀ k ∈ rest.map Prod.fst, k ∉ (d ++ [(p.1, p.2)]).map Prod.fst := by
        intro k hk
        rw [List.map_append]
        simp only [List.mem_append, List.map_cons, List.map_nil, List.mem_singleton]
        rintro (hkd | hkp)
        · exact hdisj k (by simp [hk]) hkd
        · rw [hkp] at hk
          exact hnotin hk
      rw [hstep, dictSet_fresh d p.1 p.2 hp, ih (d ++ [(p.1, p.2)]) hdisj' hnd']
      simp

mutual

/-- The entry loop of `_flatten_dict` extends the accumulator with exactly
the spec-side path/value pairs, when the produced keys are collision
free. -/
theorem flattenEntries_eq_spec (d : PyDict) (parent : String) (acc : Dict)
    (h : ((acc ++ specPathsEntries d parent).map Prod.fst).Nodup) :
    flattenEntries d parent "." acc = acc ++ specPathsEntries d parent := by
  cases d with
  | nil => simp [flattenEntries, specPathsEntries]
  | cons k v rest =>
      simp only [specPathsEntries] at h
      simp only [flattenEntries, specPathsEntries]
      rw [← List.append_assoc] at h
      have h1 : ((acc ++ specPathsVal v (mkKey parent "." k)).map Prod.fst).Nodup := by
        rw [List.map_append] at h
        exact (List.nodup_append.mp h).1
      rw [flattenValue_eq_spec v (mkKey parent "." k) acc h1,
          flattenEntries_eq_spec rest parent (acc ++ specPathsVal v (mkKey parent "." k)) h,
          List.append_assoc]

/-- One value of `_flatten_dict` extends the accumulator with exactly the
spec-side path/value pairs, when the produced keys are collision free. -/
theorem flattenValue_eq_spec (v : PyVal) (key : String) (acc : Dict)
    (h : ((acc ++ specPathsVal v key).map Prod.fst).Nodup) :
    flattenValue v key "." acc = acc ++ specPathsVal v key := by
  cases v with
  | dict d =>
      simp only [specPathsVal] at h
      simp only [flattenValue, specPathsVal]
      have h1 := h
      rw [List.map_append] at h1
      obtain ⟨hacc, hspec, hdisj⟩ := List.nodup_append.mp h1
      have hrec : flattenEntries d key "." [] = specPathsEntries d key := by
        simpa using flattenEntries_eq_spec d key [] (by simpa using hspec)
      rw [hrec, dictUpdate_fresh (specPathsEntries d key) acc
        (fun k hk hk' => hdisj hk' hk) hspec]
  | list l =>
      simp only [specPathsVal] at h
      simp only [flattenValue, specPathsVal]
      exact flattenItems_eq_spec l key 0 acc h
  | str s =>
      simp only [specPathsVal] at h
      simp only [flattenValue, specPathsVal]
      rw [List.map_append] at h
      exact dictSet_fresh acc key _
        (fun hk => (List.nodup_append.mp h).2.2 hk (by simp))
  | int n =>
      simp only [specPathsVal] at h
      simp only [flattenValue, specPathsVal]
      rw [List.map_append] at h
      exact dictSet_fresh acc key _
        (fun hk => (List.nodup_append.mp h).2.2 hk (by simp))
  | bool b =>
      simp only [specPathsVal] at h
      simp only [flattenValue, specPathsVal]
      rw [List.map_append] at h
      exact dictSet_fresh acc key _
        (fun hk => (List.nodup_append.mp h).2.2 hk (by simp))
  | null =>
      simp only [specPathsVal] at h
      simp only [flattenValue, specPathsVal]
      rw [List.map_append] at h
      exact dictSet_fresh acc key _
        (fun hk => (List.nodup_append.mp h).2.2 hk (by simp))

/-- The list loop of `_flatten_dict` extends the accumulator with exactly
the spec-side path/value pairs, when the produced keys are collision
free. -/
theorem flattenItems_eq_spec (l : PyList) (key : String) (idx : Nat) (acc : Dict)
    (h : ((acc ++ specPathsItems l key idx).map Prod.fst).Nodup) :
    flattenItems l key "." idx acc = acc ++ specPathsItems l key idx := by
  cases l with
  | nil => simp [flattenItems, specPathsItems]
  | cons item rest =>
      cases item with
      | dict d =>
          simp only [specPathsItems] at h
          simp only [flattenItems, specPathsItems]
          rw [← List.append_assoc] at h
          have h1 : ((acc ++ specPathsEntries d (key ++ "[" ++ toString idx ++ "]")).map
              Prod.fst).Nodup := by
            rw [List.map_append] at h
            exact (List.nodup_append.mp h).1
          have h2 := h1
          rw [List.map_append] at h2
          obtain ⟨hacc, hspec, hdisj⟩ := List.nodup_append.mp h2
          have hrec : flattenEntries d (key ++ "[" ++ toString idx ++ "]") "." [] =
              specPathsEntries d (key ++ "[" ++ toString idx ++ "]") := by
            simpa using flattenEntries_eq_spec d (key ++ "[" ++ toString idx ++ "]") []
              (by simpa using hspec)
          rw [hrec, dictUpdate_fresh (specPathsEntries d (key ++ "[" ++ toString idx ++ "]"))
            acc (fun k hk hk' => hdisj hk' hk) hspec,
            flattenItems_eq_spec rest key (idx + 1)
              (acc ++ specPathsEntries d (key ++ "[" ++ toString idx ++ "]")) h,
            List.append_assoc]
      | str s =>
          simp only [specPathsItems] at h
          simp only [flattenItems, specPathsItems]
          rw [show acc ++ (key ++ "[" ++ toString idx ++ "]", PyVal.str s) ::
              specPathsItems rest key (idx + 1) =
              (acc ++ [(key ++ "[" ++ toString idx ++ "]", PyVal.str s)]) ++
              specPathsItems rest key (idx + 1) by simp] at h
          have h1 : ((acc ++ [(key ++ "[" ++ toString idx ++ "]", PyVal.str s)]).map
              Prod.fst).Nodup := by
            rw [List.map_append] at h
            exact (List.nodup_append.mp h).1
          have hfresh : (key ++ "[" ++ toString idx ++ "]") ∉ acc.map Prod.fst := by
            rw [List.map_append] at h1
            exact fun hk => (List.nodup_append.mp h1).2.2 hk (by simp)
          rw [dictSet_fresh acc _ _ hfresh,
            flattenItems_eq_spec rest key (idx + 1) _ h]
          simp
      | int n =>
          simp only [specPathsItems] at h
          simp only [flattenItems, specPathsItems]
          rw [show acc ++ (key ++ "[" ++ toString idx ++ "]", PyVal.int n) ::
              specPathsItems rest key (idx + 1) =
              (acc ++ [(key ++ "[" ++ toString idx ++ "]", PyVal.int n)]) ++
              specPathsItems rest key (idx + 1) by simp] at h
          have h1 : ((acc ++ [(key ++ "[" ++ toString idx ++ "]", PyVal.int n)]).map
              Prod.fst).Nodup := by
            rw [List.map_append] at h
            exact (List.nodup_append.mp h).1
          have hfresh : (key ++ "[" ++ toString idx ++ "]") ∉ acc.map Prod.fst := by
            rw [List.map_append] at h1
            exact fun hk => (List.nodup_append.mp h1).2.2 hk (by simp)
          rw [dictSet_fresh acc _ _ hfresh,
            flattenItems_eq_spec rest key (idx + 1) _ h]
          simp
      | bool b =>
          simp only [specPathsItems] at h
          simp only [flattenItems, specPathsItems]
          rw [show acc ++ (key ++ "[" ++ toString idx ++ "]", PyVal.bool b) ::
              specPathsItems rest key (idx + 1) =
              (acc ++ [(key ++ "[" ++ toString idx ++ "]", PyVal.bool b)]) ++
              specPathsItems rest key (idx + 1) by simp] at h
          have h1 : ((acc ++ [(key ++ "[" ++ toString idx ++ "]", PyVal.bool b)]).map
              Prod.fst).Nodup := by
            rw [List.map_append] at h
            exact (List.nodup_append.mp h).1
          have hfresh : (key ++ "[" ++ toString idx ++ "]") ∉ acc.map Prod.fst := by
            rw [List.map_append] at h1
            exact fun hk => (List.nodup_append.mp h1).2.2 hk (by simp)
          rw [dictSet_fresh acc _ _ hfresh,
            flattenItems_eq_spec rest key (idx + 1) _ h]
          simp
      | null =>
          simp only [specPathsItems] at h
          simp only [flattenItems, specPathsItems]
          rw [show acc ++ (key ++ "[" ++ toString idx ++ "]", PyVal.null) ::
              specPathsItems rest key (idx + 1) =
              (acc ++ [(key ++ "[" ++ toString idx ++ "]", PyVal.null)]) ++
              specPathsItems rest key (idx + 1) by simp] at h
          have h1 : ((acc ++ [(key ++ "[" ++ toString idx ++ "]", PyVal.null)]).map
              Prod.fst).Nodup := by
            rw [List.map_append] at h
            exact (List.nodup_append.mp h).1
          have hfresh : (key ++ "[" ++ toString idx ++ "]") ∉ acc.map Prod.fst := by
            rw [List.map_append] at h1
            exact fun hk => (List.nodup_append.mp h1).2.2 hk (by simp)
          rw [dictSet_fresh acc _ _ hfresh,
            flattenItems_eq_spec rest key (idx + 1) _ h]
          simp
      | list l2 =>
          simp only [specPathsItems] at h
          simp only [flattenItems, specPathsItems]
          rw [show acc ++ (key ++ "[" ++ toString idx ++ "]", PyVal.list l2) ::
              specPathsItems rest key (idx + 1) =
              (acc ++ [(key ++ "[" ++ toString idx ++ "]", PyVal.list l2)]) ++
              specPathsItems rest key (idx + 1) by simp] at h
          have h1 : ((acc ++ [(key ++ "[" ++ toString idx ++ "]", PyVal.list l2)]).map
              Prod.fst).Nodup := by
            rw [List.map_append] at h
            exact (List.nodup_append.mp h).1
          have hfresh : (key ++ "[" ++ toString idx ++ "]") ∉ acc.map Prod.fst := by
            rw [List.map_append] at h1
            exact fun hk => (List.nodup_append.mp h1).2.2 hk (by simp)
          rw [dictSet_fresh acc _ _ hfresh,
            flattenItems_eq_spec rest key (idx + 1) _ h]
          simp

end

/-- C4: for every nested mapping whose produced flat keys are collision
free, `_flatten_dict` produces exactly the spec-side flat path-to-value
mapping — nested mappings contributing dot-separated keys, sequences
contributing bracket-indexed keys with mapping elements recursed into,
scalars mapping under their own key — and the empty mapping flattens to the
empty result. -/
theorem claim_C4_flatten_paths :
    (∀ d : PyDict,
       ((specPathsEntries d "").map Prod.fst).Nodup →
       flattenDict d = specPathsEntries d "") ∧
    flattenDict PyDict.nil = [] := by
  refine ⟨fun d h => ?_, rfl⟩
  simpa using flattenEntries_eq_spec d "" [] (by simpa using h)

/-- C4 witness: the sequence example of the claim has collision-free keys
and flattens to its spec-side paths. -/
theorem claim_C4_witness :
    ((specPathsEntries exSeq "").map Prod.fst).Nodup ∧
    flattenDict exSeq = specPathsEntries exSeq "" :=
  ⟨by decide, claim_C4_flatten_paths.1 exSeq (by decide)⟩

/-- The nested-mapping example of the flattening claim, concretely. -/
theorem flatten_example_nested :
    flattenDict exNested = [("a.b", PyVal.int 1)] := by decide

/-- The sequence example of the flattening claim, concretely. -/
theorem flatten_example_seq :
    flattenDict exSeq = [("a[0].b", PyVal.int 1), ("a[1].c", PyVal.int 2)] := by decide

/-- Key-sorted flattening example from the spec: keys sort before joining. -/
theorem flatten_sort_example :
    (sortByKey (flattenDict (.ofEntries [("b", .int 1), ("a", .int 2)]))).map
        (fun p => p.1 ++ "=" ++ pyStr p.2) = ["a=2", "b=1"] := by decide
